import Mathlib

/-!
Verification of the forecasting core of the kairos-ml service
(`src/services/kairos-ml/app/main.py`).

Embedding conventions:
* Python `int` timestamps become `Int` (arbitrary precision in both).
* Python `float` history values become `ℚ`: every operation the core
  performs on values is field arithmetic (`+`, `-`, `*`, `/`), so the
  exact-arithmetic content of the algorithms is captured by rationals.
* Raising `HTTPException` becomes returning `Except.error` carrying a
  `ForecastError`; an error response carries no prediction points by
  construction.
* Pydantic request validation (the `Literal["ETS","PROPHET"]` model field
  and `horizon: int = Field(..., ge=1)`) runs before the endpoint body and
  is embedded as `validateRequest`.
-/

/-- Error taxonomy of the service.  `invalidModel` and `invalidHorizon` are
raised by pydantic request parsing (HTTP 422); the remaining three are the
explicit `HTTPException(status_code=400, ...)` raises inside `forecast`.
All five are 400-class client errors. -/
inductive ForecastError where
  | invalidModel
  | invalidHorizon
  | lengthMismatch
  | insufficientHistory
  | unsupportedModel
deriving DecidableEq, Repr

/-- Embedding of `ForecastPoint` (pydantic model): one prediction point. -/
structure ForecastPoint where
  t : String
  yhat : ℚ
  yhatLower : Option ℚ
  yhatUpper : Option ℚ
  isFuture : Bool
deriving DecidableEq, Repr

/-- Embedding of `ForecastMetrics`. -/
structure ForecastMetrics where
  sampleCount : Nat
  mae : Option ℚ
  rmse : Option ℚ
  mape : Option ℚ
deriving DecidableEq, Repr

/-- Embedding of `ForecastMeta`. -/
structure ForecastMeta where
  horizon : Int
  historyCount : Nat
  intervalLevel : Option ℚ
  metrics : ForecastMetrics
deriving DecidableEq, Repr

/-- Embedding of `ForecastResponse`. -/
structure ForecastResponse where
  points : List ForecastPoint
  meta : ForecastMeta
deriving DecidableEq, Repr

/-- Embedding of `ForecastRequest`.  `model` is kept as the raw wire string
(pydantic's `Literal` check is part of `validateRequest`); `config` is
reduced to its one recognized key, `seasonLength`, with `none` standing for
an absent mapping or an absent key. -/
structure ForecastRequest where
  model : String
  ds : List Int
  y : List ℚ
  horizon : Int
  seasonLengthCfg : Option Int
deriving DecidableEq, Repr

/-- Successive differences `ds[i] - ds[i-1]` (i = 1..len-1) in original
order, keeping only the strictly positive ones — the `diffs` list built by
the loop in `infer_step_seconds`. -/
def posDiffs (ds : List Int) : List Int :=
  ((ds.zip ds.tail).map fun p => p.2 - p.1).filter fun d => decide (0 < d)

/-- Ascending insert, the inner step of insertion sort. -/
def insertAsc (a : Int) : List Int → List Int
  | [] => [a]
  | b :: l => if a ≤ b then a :: b :: l else b :: insertAsc a l

/-- Ascending insertion sort over `Int`.  `list.sort()` in Python sorts
ascending; since `≤` on `Int` is a total order on the values themselves,
every correct sort produces the same output list, so this structural
implementation is extensionally the `diffs.sort()` of the source. -/
def sortAsc : List Int → List Int
  | [] => []
  | a :: l => insertAsc a (sortAsc l)

/-- The `diffs.sort()` step of `infer_step_seconds`: the positive
differences in ascending order. -/
def sortedPosDiffs (ds : List Int) : List Int :=
  sortAsc (posDiffs ds)

/-- Embedding of `infer_step_seconds`.  `int((diffs[mid-1]+diffs[mid])/2)`
is exact-rational mean truncated by `int(...)`; both central elements are
positive here, so truncation toward zero coincides with `/` on `Int`
(floor), which is what the embedding uses. -/
def infer_step_seconds (ds : List Int) : Int :=
  if ds.length < 2 then 60 * 60 * 24
  else
    let diffs := posDiffs ds
    if diffs = [] then 60 * 60 * 24
    else
      let sorted := sortedPosDiffs ds
      let mid := sorted.length / 2
      if sorted.length % 2 = 1 then sorted.getD mid 0
      else (sorted.getD (mid - 1) 0 + sorted.getD mid 0) / 2

/-- Embedding of `forecast_seasonal_naive`.  `y[-season_length:]` is
`y.drop (y.length - s)`; `window[i % season_length]` is in-range whenever
taken (the window has exactly `s ≥ 1` elements), so `getD _ 0` never
falls back to its default. -/
def forecast_seasonal_naive (y : List ℚ) (horizon : Nat)
    (season_length : Int) : List ℚ :=
  if y = [] then []
  else
    let s : Int := if season_length < 1 then 1 else season_length
    let sn : Nat := s.toNat
    if y.length < sn then List.replicate horizon (y.getLastD 0)
    else
      let window := y.drop (y.length - sn)
      (List.range horizon).map fun i => window.getD (i % sn) 0

/-- Mean of the index positions: the `x_mean = (n - 1) / 2.0` of
`forecast_linear_trend` (real division, no truncation). -/
def xMean (n : Nat) : ℚ := ((n : ℚ) - 1) / 2

/-- Mean of the history values: the `y_mean = sum(y) / n` of
`forecast_linear_trend`. -/
def yMean (y : List ℚ) : ℚ := y.sum / (y.length : ℚ)

/-- The `var` accumulator of `forecast_linear_trend`:
`var += dx * dx` over `i = 0..n-1`. -/
def linVar (n : Nat) : ℚ :=
  (List.range n).foldl (fun acc (i : Nat) => acc + ((i : ℚ) - xMean n) * ((i : ℚ) - xMean n)) 0

/-- The `cov` accumulator of `forecast_linear_trend`:
`cov += dx * (val - y_mean)` over `enumerate(y)`. -/
def linCov (y : List ℚ) : ℚ :=
  y.enum.foldl
    (fun acc (p : Nat × ℚ) => acc + ((p.1 : ℚ) - xMean y.length) * (p.2 - yMean y)) 0

/-- The `slope = cov / var if var > 0 else 0.0` guard of
`forecast_linear_trend`. -/
def linSlope (y : List ℚ) : ℚ :=
  if 0 < linVar y.length then linCov y / linVar y.length else 0

/-- The `intercept = y_mean - slope * x_mean` of `forecast_linear_trend`. -/
def linIntercept (y : List ℚ) : ℚ := yMean y - linSlope y * xMean y.length

/-- Embedding of `forecast_linear_trend`. -/
def forecast_linear_trend (y : List ℚ) (horizon : Nat) : List ℚ :=
  if y = [] then []
  else
    let n := y.length
    if n = 1 then List.replicate horizon (y.getD 0 0)
    else
      (List.range horizon).map fun j : Nat =>
        linIntercept y + linSlope y * ((n : ℚ) + (j : ℚ))

/-- Decimal digit character for `n % 10`. -/
def digitChar (n : Nat) : Char :=
  (['0', '1', '2', '3', '4', '5', '6', '7', '8', '9']).getD (n % 10) '0'

/-- Fuel-indexed helper for `natDigits`; the fuel only serves to make the
recursion structural, and `fuel = n + 1` is always enough since the
argument shrinks by a factor of 10 each step. -/
def natDigitsGo (fuel : Nat) (n : Nat) : List Char :=
  match fuel with
  | 0 => []
  | fuel + 1 =>
    if n < 10 then [digitChar n]
    else natDigitsGo fuel (n / 10) ++ [digitChar (n % 10)]

/-- Decimal digit characters of `n`, most significant first. -/
def natDigits (n : Nat) : List Char := natDigitsGo (n + 1) n

/-- Left-pad with `'0'` to width `w` — the `%02d` / `%04d` padding of
`datetime.isoformat`. -/
def zfill (w : Nat) (s : List Char) : List Char :=
  List.replicate (w - s.length) '0' ++ s

/-- Proleptic-Gregorian date `(year, month, day)` of the day `z` days after
1970-01-01 — the civil-calendar computation performed by
`datetime.fromtimestamp(..., tz=timezone.utc)`. -/
def civilFromDays (z0 : Int) : Int × Int × Int :=
  let z := z0 + 719468
  let era := z / 146097
  let doe := z - era * 146097
  let yoe := (doe - doe / 1460 + doe / 36524 - doe / 146096) / 365
  let y := yoe + era * 400
  let doy := doe - (365 * yoe + yoe / 4 - yoe / 100)
  let mp := (5 * doy + 2) / 153
  let d := doy - (153 * mp + 2) / 5 + 1
  let m := mp + (if mp < 10 then 3 else -9)
  (y + (if m ≤ 2 then 1 else 0), m, d)

/-- Character list of the rendered timestamp, without the zone suffix:
`YYYY-MM-DDTHH:MM:SS`. -/
def isoChars (seconds : Int) : List Char :=
  let days := seconds / 86400
  let sod := (seconds % 86400).toNat
  let c := civilFromDays days
  zfill 4 (natDigits c.1.toNat) ++ (['-'] ++
  (zfill 2 (natDigits c.2.1.toNat) ++ (['-'] ++
  (zfill 2 (natDigits c.2.2.toNat) ++ (['T'] ++
  (zfill 2 (natDigits (sod / 3600)) ++ ([':'] ++
  (zfill 2 (natDigits (sod % 3600 / 60)) ++ ([':'] ++
  zfill 2 (natDigits (sod % 60)))))))))))

/-- Embedding of `iso_from_seconds`.  The Python builds
`datetime.fromtimestamp(seconds, tz=utc).replace(microsecond=0).isoformat()`
— which for a UTC datetime always ends in the offset `"+00:00"` and, with
microseconds zeroed, carries no fractional-second field — and then replaces
`"+00:00"` with `"Z"`; the embedding renders the same characters with the
`"Z"` suffix directly. -/
def iso_from_seconds (seconds : Int) : String :=
  String.mk (isoChars seconds ++ ['Z'])

/-- Pydantic request parsing: `model` must be one of the `Literal` values
`"ETS"`/`"PROPHET"`, and `horizon` must satisfy `ge=1`.  Returns the
validation error, if any, before the endpoint body runs. -/
def validateRequest (r : ForecastRequest) : Option ForecastError :=
  if r.model ≠ "ETS" ∧ r.model ≠ "PROPHET" then some .invalidModel
  else if r.horizon < 1 then some .invalidHorizon
  else none

/-- Body of the `forecast` endpoint: the two explicit validation raises,
the model dispatch (with the defensive `Unsupported model` raise), and the
response assembly over `enumerate(preds, start=1)`. -/
def forecastBody (r : ForecastRequest) : Except ForecastError ForecastResponse :=
  if r.ds.length ≠ r.y.length then .error .lengthMismatch
  else if r.ds.length < 2 then .error .insufficientHistory
  else
    let step := infer_step_seconds r.ds
    let last_ds := r.ds.getLastD 0
    let predsE : Except ForecastError (List ℚ) :=
      if r.model = "ETS" then
        .ok (forecast_seasonal_naive r.y r.horizon.toNat (r.seasonLengthCfg.getD 7))
      else if r.model = "PROPHET" then
        .ok (forecast_linear_trend r.y r.horizon.toNat)
      else .error .unsupportedModel
    match predsE with
    | .error e => .error e
    | .ok preds =>
      .ok {
        points := (List.enumFrom 1 preds).map fun p : Nat × ℚ =>
          { t := iso_from_seconds (last_ds + step * (p.1 : Int))
            yhat := p.2
            yhatLower := none
            yhatUpper := none
            isFuture := true }
        meta := {
          horizon := r.horizon
          historyCount := r.ds.length
          intervalLevel := none
          metrics := { sampleCount := 0, mae := none, rmse := none, mape := none } } }

/-- The full `/v1/forecast` exchange: pydantic validation, then the
endpoint body. -/
def forecast (r : ForecastRequest) : Except ForecastError ForecastResponse :=
  match validateRequest r with
  | some e => .error e
  | none => forecastBody r

/-- True exactly on `Except.error`. -/
def isErr {ε α : Type} : Except ε α → Bool
  | .error _ => true
  | .ok _ => false

/-- The epoch-seconds value whose rendering is stored in the k-th
prediction point (0-indexed k): `last_ds + step * (k + 1)`. -/
def projSeconds (r : ForecastRequest) (k : Nat) : Int :=
  r.ds.getLastD 0 + infer_step_seconds r.ds * ((k : Int) + 1)

/-- A default `ForecastPoint` used as the (never-relevant) fallback of
`List.getD` in theorem statements. -/
def dummyPoint : ForecastPoint :=
  { t := "", yhat := 0, yhatLower := none, yhatUpper := none, isFuture := false }

/-- The in-place clamp `if season_length < 1: season_length = 1` of
`forecast_seasonal_naive`, as a `Nat` (it is ≥ 1 by construction). -/
def clampSeason (sl : Int) : Nat := (if sl < 1 then 1 else sl).toNat

/-- Mean of the index positions 0..n-1 written as the claim words it:
the arithmetic mean of the indices. -/
def indexMean (n : Nat) : ℚ := ((List.range n).map (fun i : Nat => (i : ℚ))).sum / n

/-- Variance of the index positions 0..n-1, written as the claim words
it. -/
def indexVariance (n : Nat) : ℚ :=
  ((List.range n).map (fun i : Nat =>
    ((i : ℚ) - indexMean n) * ((i : ℚ) - indexMean n))).sum / n

/-- Covariance of index and value, written as the claim words it. -/
def indexValueCovariance (y : List ℚ) : ℚ :=
  (y.enum.map (fun p : Nat × ℚ =>
    ((p.1 : ℚ) - indexMean y.length) * (p.2 - yMean y))).sum / y.length

/-- The claim's closed-form OLS slope:
`covariance(index, value) / variance(index)`. -/
def olsSlope (y : List ℚ) : ℚ := indexValueCovariance y / indexVariance y.length

/-- The claim's closed-form OLS intercept:
`mean(value) - slope * mean(index)`. -/
def olsIntercept (y : List ℚ) : ℚ := yMean y - olsSlope y * indexMean y.length

/-- The prediction list selected by the endpoint's model dispatch for a
request that passed validation: `forecast_seasonal_naive` for `"ETS"`
(season length from config, default 7), `forecast_linear_trend` for
`"PROPHET"`. -/
def dispatchPreds (r : ForecastRequest) : List ℚ :=
  if r.model = "ETS" then
    forecast_seasonal_naive r.y r.horizon.toNat (r.seasonLengthCfg.getD 7)
  else forecast_linear_trend r.y r.horizon.toNat

/-- The response `forecastBody` assembles for a request that passes every
check: one point per prediction, paired with the projected timestamps, and
the fixed metadata block. -/
def assembledResponse (r : ForecastRequest) : ForecastResponse :=
  { points := (List.enumFrom 1 (dispatchPreds r)).map fun p : Nat × ℚ =>
      { t := iso_from_seconds (r.ds.getLastD 0 + infer_step_seconds r.ds * (p.1 : Int))
        yhat := p.2
        yhatLower := none
        yhatUpper := none
        isFuture := true }
    meta := { horizon := r.horizon, historyCount := r.ds.length, intervalLevel := none
              metrics := { sampleCount := 0, mae := none, rmse := none, mape := none } } }



theorem getD_eq_getElem {α : Type} (l : List α) (d : α) {n : Nat}
    (h : n < l.length) : l.getD n d = l[n] := by
  rw [List.getD_eq_getElem?_getD, List.getElem?_eq_getElem h]
  rfl

theorem getD_mem {α : Type} (l : List α) (d : α) {n : Nat}
    (h : n < l.length) : l.getD n d ∈ l := by
  rw [getD_eq_getElem l d h]
  exact List.getElem_mem h

theorem length_insertAsc (a : Int) (l : List Int) :
    (insertAsc a l).length = l.length + 1 := by
  induction l with
  | nil => rfl
  | cons b t ih =>
    simp only [insertAsc]
    split
    · simp
    · simp [ih]

theorem length_sortAsc (l : List Int) : (sortAsc l).length = l.length := by
  induction l with
  | nil => rfl
  | cons a t ih => simp [sortAsc, length_insertAsc, ih]

theorem mem_insertAsc {x a : Int} {l : List Int} :
    x ∈ insertAsc a l ↔ x = a ∨ x ∈ l := by
  induction l with
  | nil => simp [insertAsc]
  | cons b t ih =>
    simp only [insertAsc]
    split
    · simp
    · simp only [List.mem_cons, ih]
      tauto

theorem mem_sortAsc {x : Int} {l : List Int} : x ∈ sortAsc l ↔ x ∈ l := by
  induction l with
  | nil => simp [sortAsc]
  | cons a t ih => simp [sortAsc, mem_insertAsc, ih]

theorem sortedPosDiffs_length (ds : List Int) :
    (sortedPosDiffs ds).length = (posDiffs ds).length := by
  rw [sortedPosDiffs, length_sortAsc]

theorem mem_sortedPosDiffs {x : Int} {ds : List Int} :
    x ∈ sortedPosDiffs ds ↔ x ∈ posDiffs ds := by
  rw [sortedPosDiffs, mem_sortAsc]

theorem posDiffs_pos {ds : List Int} {x : Int} (hx : x ∈ posDiffs ds) :
    0 < x := by
  rw [posDiffs, List.mem_filter] at hx
  exact of_decide_eq_true hx.2

theorem posDiffs_of_short {ds : List Int} (h : ds.length < 2) :
    posDiffs ds = [] := by
  match ds with
  | [] => rfl
  | [x] => rfl
  | x :: y :: t => simp at h; omega

theorem infer_step_pos (ds : List Int) : 1 ≤ infer_step_seconds ds := by
  by_cases h1 : ds.length < 2
  · simp only [infer_step_seconds, if_pos h1]
    norm_num
  · by_cases h2 : posDiffs ds = []
    · simp only [infer_step_seconds, if_neg h1, if_pos h2]
      norm_num
    · have hlen : 1 ≤ (sortedPosDiffs ds).length := by
        rw [sortedPosDiffs_length]
        exact List.length_pos.mpr h2
      by_cases h3 : (sortedPosDiffs ds).length % 2 = 1
      · simp only [infer_step_seconds, if_neg h1, if_neg h2, if_pos h3]
        have hmid : (sortedPosDiffs ds).length / 2 < (sortedPosDiffs ds).length := by
          omega
        have := posDiffs_pos (mem_sortedPosDiffs.mp (getD_mem _ 0 hmid))
        omega
      · simp only [infer_step_seconds, if_neg h1, if_neg h2, if_neg h3]
        have hlen2 : 2 ≤ (sortedPosDiffs ds).length := by omega
        have hmid : (sortedPosDiffs ds).length / 2 < (sortedPosDiffs ds).length := by
          omega
        have hmid1 : (sortedPosDiffs ds).length / 2 - 1 < (sortedPosDiffs ds).length := by
          omega
        have ha := posDiffs_pos (mem_sortedPosDiffs.mp (getD_mem _ 0 hmid1))
        have hb := posDiffs_pos (mem_sortedPosDiffs.mp (getD_mem _ 0 hmid))
        omega

/-- C5: the interval inferer keeps only positive successive differences
(`posDiffs`), returns the fixed default 86400 whenever none remain (which
covers fewer than 2 points and `ds = [100, 100]`), and for an odd count of
positive differences returns the middle element of the sorted differences;
on `ds = [0, 86400, 172800, 345600]` it returns 86400. -/
theorem infer_step_seconds_default_and_odd_median :
    (∀ ds : List Int, posDiffs ds = [] → infer_step_seconds ds = 86400) ∧
    (∀ ds : List Int, (posDiffs ds).length % 2 = 1 →
      infer_step_seconds ds
        = (sortedPosDiffs ds).getD ((posDiffs ds).length / 2) 0) ∧
    infer_step_seconds [0, 86400, 172800, 345600] = 86400 ∧
    infer_step_seconds [100, 100] = 86400 := by
  refine ⟨?_, ?_, by decide, by decide⟩
  · intro ds h
    by_cases h1 : ds.length < 2
    · simp only [infer_step_seconds, if_pos h1]
      norm_num
    · simp only [infer_step_seconds, if_neg h1, if_pos h]
      norm_num
  · intro ds hodd
    have hne : posDiffs ds ≠ [] := by
      intro h
      rw [h] at hodd
      simp at hodd
    have h1 : ¬ ds.length < 2 := fun h => hne (posDiffs_of_short h)
    have h3 : (sortedPosDiffs ds).length % 2 = 1 := by
      rw [sortedPosDiffs_length]
      exact hodd
    simp only [infer_step_seconds, if_neg h1, if_neg hne, if_pos h3,
      sortedPosDiffs_length]
    rw [if_pos hodd]

/-- C6 counterexample: on `ds = [0, 1, 3]` the positive differences are
`[1, 2]` (even, non-zero count) whose arithmetic mean is `3/2`, but the
code truncates `int((1 + 2) / 2)` and returns `1`. -/
theorem infer_step_seconds_even_not_mean :
    (posDiffs [0, 1, 3]).length % 2 = 0 ∧
    posDiffs [0, 1, 3] ≠ [] ∧
    sortedPosDiffs [0, 1, 3] = [1, 2] ∧
    infer_step_seconds [0, 1, 3] = 1 ∧
    ((infer_step_seconds [0, 1, 3] : ℚ) ≠ ((1 : ℚ) + 2) / 2) := by
  refine ⟨by decide, by decide, by decide, by decide, ?_⟩
  have h : infer_step_seconds [0, 1, 3] = 1 := by decide
  rw [h]
  norm_num

/-- C6 amended: for an even, non-zero count of positive differences the
interval inferer returns the integer floor of the arithmetic mean of the
two central elements of the sorted differences (`int((a + b) / 2)`), which
equals the exact mean only when the two central elements have an even
sum. -/
theorem infer_step_seconds_even_floor_mean :
    ∀ ds : List Int, (posDiffs ds).length % 2 = 0 → posDiffs ds ≠ [] →
      infer_step_seconds ds
        = ((sortedPosDiffs ds).getD ((posDiffs ds).length / 2 - 1) 0
            + (sortedPosDiffs ds).getD ((posDiffs ds).length / 2) 0) / 2 := by
  intro ds heven hne
  have h1 : ¬ ds.length < 2 := fun h => hne (posDiffs_of_short h)
  have h3 : ¬ (sortedPosDiffs ds).length % 2 = 1 := by
    rw [sortedPosDiffs_length]
    omega
  simp only [infer_step_seconds, if_neg h1, if_neg hne, if_neg h3,
    sortedPosDiffs_length]
  rw [if_neg (by omega : ¬ (posDiffs ds).length % 2 = 1)]

/-- Witness for the amended C6 statement at `ds = [0, 1, 3]`. -/
theorem infer_step_seconds_even_floor_mean_witness :
    infer_step_seconds [0, 1, 3]
      = ((sortedPosDiffs [0, 1, 3]).getD ((posDiffs [0, 1, 3]).length / 2 - 1) 0
          + (sortedPosDiffs [0, 1, 3]).getD ((posDiffs [0, 1, 3]).length / 2) 0) / 2 :=
  infer_step_seconds_even_floor_mean [0, 1, 3] (by decide) (by decide)

/-- Witness for C5 at `ds = [100, 100]` (empty positive-difference case)
and `ds = [0, 86400, 172800, 345600]` (odd case). -/
theorem infer_step_seconds_default_and_odd_median_witness :
    infer_step_seconds [100, 100] = 86400 ∧
    infer_step_seconds [0, 86400, 172800, 345600]
      = (sortedPosDiffs [0, 86400, 172800, 345600]).getD
          ((posDiffs [0, 86400, 172800, 345600]).length / 2) 0 :=
  ⟨infer_step_seconds_default_and_odd_median.1 [100, 100] (by decide),
   infer_step_seconds_default_and_odd_median.2.1 [0, 86400, 172800, 345600] (by decide)⟩


theorem getD_map_range {α : Type} (f : Nat → α) (d : α) {i n : Nat}
    (h : i < n) : ((List.range n).map f).getD i d = f i := by
  rw [List.getD_eq_getElem?_getD, List.getElem?_map, List.getElem?_range h]
  rfl

theorem getD_replicate {α : Type} (a d : α) {i n : Nat} (h : i < n) :
    (List.replicate n a).getD i d = a := by
  rw [List.getD_eq_getElem?_getD, List.getElem?_replicate, if_pos h]
  rfl

/-- C3: with a non-empty history at least as long as the clamped season
length, the seasonal forecaster emits `horizon` predictions, the i-th of
which is `window[i mod s]` for the window of the final `s` values in
original order; on `y = [1, 2, 3, 4]`, `horizon = 4`, `seasonLength = 2`
it yields `[3, 4, 3, 4]`. -/
theorem seasonal_naive_window_cycle :
    (∀ (y : List ℚ) (h : Nat) (sl : Int), y ≠ [] → 1 ≤ h →
      clampSeason sl ≤ y.length →
      (forecast_seasonal_naive y h sl).length = h ∧
      ∀ i, i < h →
        (forecast_seasonal_naive y h sl).getD i 0
          = (y.drop (y.length - clampSeason sl)).getD (i % clampSeason sl) 0) ∧
    forecast_seasonal_naive [1, 2, 3, 4] 4 2 = [3, 4, 3, 4] := by
  refine ⟨?_, by decide⟩
  intro y h sl hy hh hs
  rw [clampSeason] at hs
  have hnl : ¬ (y.length < (if sl < 1 then 1 else sl).toNat) := by omega
  constructor
  · simp only [forecast_seasonal_naive, if_neg hy, if_neg hnl,
      List.length_map, List.length_range]
  · intro i hi
    simp only [forecast_seasonal_naive, if_neg hy, if_neg hnl, clampSeason]
    exact getD_map_range _ _ hi

/-- Witness for C3 at `y = [1, 2, 3, 4]`, `horizon = 4`,
`seasonLength = 2`. -/
theorem seasonal_naive_window_cycle_witness :
    (forecast_seasonal_naive [1, 2, 3, 4] 4 2).length = 4 ∧
    ∀ i, i < 4 →
      (forecast_seasonal_naive [1, 2, 3, 4] 4 2).getD i 0
        = (([1, 2, 3, 4] : List ℚ).drop (([1, 2, 3, 4] : List ℚ).length - clampSeason 2)).getD
            (i % clampSeason 2) 0 :=
  seasonal_naive_window_cycle.1 [1, 2, 3, 4] 4 2 (by decide) (by decide) (by decide)

/-- C8: with a non-empty history strictly shorter than the clamped season
length, every prediction equals the most recent observed value; on
`y = [5]`, `horizon = 3`, `seasonLength = 7` it yields `[5, 5, 5]`. -/
theorem seasonal_naive_short_history :
    (∀ (y : List ℚ) (h : Nat) (sl : Int), y ≠ [] → 1 ≤ h →
      y.length < clampSeason sl →
      (forecast_seasonal_naive y h sl).length = h ∧
      ∀ i, i < h → (forecast_seasonal_naive y h sl).getD i 0 = y.getLastD 0) ∧
    forecast_seasonal_naive [5] 3 7 = [5, 5, 5] := by
  refine ⟨?_, by decide⟩
  intro y h sl hy hh hs
  rw [clampSeason] at hs
  constructor
  · simp only [forecast_seasonal_naive, if_neg hy, if_pos hs, List.length_replicate]
  · intro i hi
    simp only [forecast_seasonal_naive, if_neg hy, if_pos hs]
    exact getD_replicate _ _ hi

/-- Witness for C8 at `y = [5]`, `horizon = 3`, `seasonLength = 7`. -/
theorem seasonal_naive_short_history_witness :
    (forecast_seasonal_naive [5] 3 7).length = 3 ∧
    ∀ i, i < 3 →
      (forecast_seasonal_naive [5] 3 7).getD i 0 = ([5] : List ℚ).getLastD 0 :=
  seasonal_naive_short_history.1 [5] 3 7 (by decide) (by decide) (by decide)

theorem foldl_add_map {α : Type} (f : α → ℚ) (l : List α) (a : ℚ) :
    l.foldl (fun acc x => acc + f x) a = a + (l.map f).sum := by
  induction l generalizing a with
  | nil => simp
  | cons x xs ih => simp [ih, add_assoc]

theorem range_cast_sum (n : Nat) :
    ((List.range n).map (fun i : Nat => (i : ℚ))).sum = n * (n - 1) / 2 := by
  induction n with
  | zero => simp
  | succ m ih =>
    rw [List.range_succ, List.map_append, List.sum_append, ih]
    simp only [List.map_cons, List.map_nil, List.sum_cons, List.sum_nil]
    push_cast
    ring

theorem linVar_eq_sum (n : Nat) :
    linVar n = ((List.range n).map (fun i : Nat => ((i : ℚ) - xMean n) * ((i : ℚ) - xMean n))).sum := by
  rw [linVar, foldl_add_map]
  rw [zero_add]

theorem linVar_pos {n : Nat} (h : 2 ≤ n) : 0 < linVar n := by
  obtain ⟨m, rfl⟩ : ∃ m, n = m + 2 := ⟨n - 2, by omega⟩
  rw [linVar_eq_sum]
  rw [List.range_succ_eq_map]
  simp only [List.map_cons, List.sum_cons, Nat.cast_zero]
  have h0 : (0 : ℚ) < ((0 : ℚ) - xMean (m + 2)) * ((0 : ℚ) - xMean (m + 2)) := by
    have hx : 0 < xMean (m + 2) := by
      rw [xMean]
      have : (1 : ℚ) ≤ ((m + 2 : Nat) : ℚ) - 1 := by push_cast; linarith [Nat.cast_nonneg (α := ℚ) m]
      linarith
    nlinarith
  have hrest : 0 ≤ (((List.range (m + 1)).map Nat.succ).map (fun i : Nat => ((i : ℚ) - xMean (m + 2)) * ((i : ℚ) - xMean (m + 2)))).sum := by
    apply List.sum_nonneg
    intro x hx
    simp only [List.mem_map] at hx
    obtain ⟨i, _, rfl⟩ := hx
    exact mul_self_nonneg _
  linarith

theorem linCov_eq_sum (y : List ℚ) :
    linCov y
      = (y.enum.map (fun p : Nat × ℚ =>
          ((p.1 : ℚ) - xMean y.length) * (p.2 - yMean y))).sum := by
  rw [linCov, foldl_add_map]
  rw [zero_add]

theorem indexMean_eq {n : Nat} (h : 1 ≤ n) : indexMean n = xMean n := by
  rw [indexMean, xMean, range_cast_sum]
  have hn : (n : ℚ) ≠ 0 := Nat.cast_ne_zero.mpr (by omega)
  field_simp
  ring

theorem indexVariance_eq {n : Nat} (h : 1 ≤ n) :
    indexVariance n = linVar n / n := by
  rw [indexVariance, linVar_eq_sum, indexMean_eq h]

theorem indexValueCovariance_eq {y : List ℚ} (h : 1 ≤ y.length) :
    indexValueCovariance y = linCov y / y.length := by
  rw [indexValueCovariance, linCov_eq_sum, indexMean_eq h]

theorem olsSlope_eq {y : List ℚ} (h : 2 ≤ y.length) :
    olsSlope y = linSlope y := by
  have hv := linVar_pos (n := y.length) h
  have hn : (y.length : ℚ) ≠ 0 := Nat.cast_ne_zero.mpr (by omega)
  have hv' : linVar y.length ≠ 0 := ne_of_gt hv
  rw [olsSlope, indexVariance_eq (by omega), indexValueCovariance_eq (by omega),
    linSlope, if_pos hv]
  field_simp

theorem olsIntercept_eq {y : List ℚ} (h : 2 ≤ y.length) :
    olsIntercept y = linIntercept y := by
  rw [olsIntercept, linIntercept, olsSlope_eq h, indexMean_eq (by omega)]

/-- C4: for at least two observations the linear-trend forecaster computes
exactly the closed-form OLS extrapolation `intercept + slope * position`
at positions `n .. n + horizon - 1`, with slope the index/value covariance
over the index variance and intercept `mean(value) - slope * mean(index)`;
on `y = [1, 2, 3]`, `horizon = 2` it yields `[4, 5]`. -/
theorem linear_trend_ols_extrapolation :
    (∀ (y : List ℚ) (h : Nat), 2 ≤ y.length → 1 ≤ h →
      forecast_linear_trend y h
        = (List.range h).map fun j : Nat =>
            olsIntercept y + olsSlope y * ((y.length : ℚ) + (j : ℚ))) ∧
    forecast_linear_trend [1, 2, 3] 2 = [4, 5] := by
  constructor
  · intro y h hy hh
    have hne : ¬ (y = []) := by
      intro e
      rw [e] at hy
      simp at hy
    have hn1 : ¬ (y.length = 1) := by omega
    simp only [forecast_linear_trend, if_neg hne, if_neg hn1]
    apply List.map_congr_left
    intro j _
    rw [olsIntercept_eq hy, olsSlope_eq hy]
  · norm_num [forecast_linear_trend, linIntercept, linSlope, linVar, linCov, xMean, yMean,
      List.range, List.range.loop, List.enum, List.enumFrom]
    intro h
    simp at h

/-- Witness for C4 at `y = [1, 2, 3]`, `horizon = 2`. -/
theorem linear_trend_ols_extrapolation_witness :
    forecast_linear_trend [1, 2, 3] 2
      = (List.range 2).map fun j : Nat =>
          olsIntercept [1, 2, 3] + olsSlope [1, 2, 3] * ((([1, 2, 3] : List ℚ).length : ℚ) + (j : ℚ)) :=
  linear_trend_ols_extrapolation.1 [1, 2, 3] 2 (by decide) (by decide)

/-- C9: for histories of length at least 2 the index variance accumulator
of the linear-trend forecaster is strictly positive, so the
`slope = cov / var` division is always taken (and safe) and the
`slope = 0` fallback branch is unreachable. -/
theorem linear_trend_division_safe :
    ∀ y : List ℚ, 2 ≤ y.length →
      0 < linVar y.length ∧ linSlope y = linCov y / linVar y.length := by
  intro y hy
  refine ⟨linVar_pos hy, ?_⟩
  rw [linSlope, if_pos (linVar_pos hy)]

/-- Witness for C9 at `y = [1, 2]`. -/
theorem linear_trend_division_safe_witness :
    0 < linVar (([1, 2] : List ℚ)).length ∧
    linSlope ([1, 2] : List ℚ) = linCov [1, 2] / linVar (([1, 2] : List ℚ)).length :=
  linear_trend_division_safe [1, 2] (by decide)

theorem length_forecast_seasonal_naive (y : List ℚ) (h : Nat) (sl : Int)
    (hy : y ≠ []) : (forecast_seasonal_naive y h sl).length = h := by
  simp only [forecast_seasonal_naive, if_neg hy]
  split <;> split <;> simp

theorem length_forecast_linear_trend (y : List ℚ) (h : Nat)
    (hy : y ≠ []) : (forecast_linear_trend y h).length = h := by
  simp only [forecast_linear_trend, if_neg hy]
  split <;> simp

theorem length_dispatchPreds (r : ForecastRequest) (hy : r.y ≠ []) :
    (dispatchPreds r).length = r.horizon.toNat := by
  rw [dispatchPreds]
  split
  · exact length_forecast_seasonal_naive _ _ _ hy
  · exact length_forecast_linear_trend _ _ hy

theorem forecast_invalid_model {r : ForecastRequest}
    (hm : r.model ≠ "ETS" ∧ r.model ≠ "PROPHET") :
    forecast r = .error .invalidModel := by
  simp only [forecast, validateRequest, if_pos hm]

theorem forecast_invalid_horizon {r : ForecastRequest}
    (hm : ¬ (r.model ≠ "ETS" ∧ r.model ≠ "PROPHET")) (hh : r.horizon < 1) :
    forecast r = .error .invalidHorizon := by
  simp only [forecast, validateRequest, if_neg hm, if_pos hh]

theorem forecast_length_mismatch_err {r : ForecastRequest}
    (hm : ¬ (r.model ≠ "ETS" ∧ r.model ≠ "PROPHET")) (hh : 1 ≤ r.horizon)
    (hl : r.ds.length ≠ r.y.length) :
    forecast r = .error .lengthMismatch := by
  have hh' : ¬ (r.horizon < 1) := by omega
  simp only [forecast, validateRequest, if_neg hm, if_neg hh', forecastBody, if_pos hl]

theorem forecast_insufficient_err {r : ForecastRequest}
    (hm : ¬ (r.model ≠ "ETS" ∧ r.model ≠ "PROPHET")) (hh : 1 ≤ r.horizon)
    (hl : r.ds.length = r.y.length) (h2 : r.ds.length < 2) :
    forecast r = .error .insufficientHistory := by
  have hh' : ¬ (r.horizon < 1) := by omega
  have hl' : ¬ (r.ds.length ≠ r.y.length) := by simp [hl]
  simp only [forecast, validateRequest, if_neg hm, if_neg hh', forecastBody,
    if_neg hl', if_pos h2]

theorem forecast_eq_ok {r : ForecastRequest}
    (hm : r.model = "ETS" ∨ r.model = "PROPHET") (hh : 1 ≤ r.horizon)
    (hl : r.ds.length = r.y.length) (h2 : 2 ≤ r.ds.length) :
    forecast r = .ok (assembledResponse r) := by
  have hh' : ¬ (r.horizon < 1) := by omega
  have hl' : ¬ (r.ds.length ≠ r.y.length) := by simp [hl]
  have h2' : ¬ (r.ds.length < 2) := by omega
  have hmm : ¬ (r.model ≠ "ETS" ∧ r.model ≠ "PROPHET") := by tauto
  rcases hm with hm | hm <;>
    simp [forecast, validateRequest, forecastBody, assembledResponse, dispatchPreds,
      if_neg hmm, if_neg hh', if_neg hl', if_neg h2', hm]

theorem forecast_ok_inv {r : ForecastRequest} {resp : ForecastResponse}
    (h : forecast r = .ok resp) :
    (r.model = "ETS" ∨ r.model = "PROPHET") ∧ 1 ≤ r.horizon ∧
    r.ds.length = r.y.length ∧ 2 ≤ r.ds.length ∧
    resp = assembledResponse r := by
  by_cases hm : r.model ≠ "ETS" ∧ r.model ≠ "PROPHET"
  · rw [forecast_invalid_model hm] at h
    simp at h
  · have hm' : r.model = "ETS" ∨ r.model = "PROPHET" := by tauto
    by_cases hh : 1 ≤ r.horizon
    · by_cases hl : r.ds.length = r.y.length
      · by_cases h2 : 2 ≤ r.ds.length
        · rw [forecast_eq_ok hm' hh hl h2] at h
          simp only [Except.ok.injEq] at h
          exact ⟨hm', hh, hl, h2, h.symm⟩
        · rw [forecast_insufficient_err hm hh hl (by omega)] at h
          simp at h
      · rw [forecast_length_mismatch_err hm hh hl] at h
        simp at h
    · rw [forecast_invalid_horizon hm (by omega)] at h
      simp at h

/-- C1: a valid request (recognized model, horizon ≥ 1, equal-length `ds`
and `y` with at least 2 observations) yields a successful response with
exactly `horizon` points, and any successful response has exactly
`horizon` points — an error response carries no points at all by
construction (`Except.error` holds only a `ForecastError`), so there is no
partial-result outcome. -/
theorem forecast_complete_horizon :
    ∀ r : ForecastRequest, 1 ≤ r.horizon →
    ((r.model = "ETS" ∨ r.model = "PROPHET") → r.ds.length = r.y.length →
      2 ≤ r.ds.length →
      ∃ resp, forecast r = .ok resp ∧ (resp.points.length : Int) = r.horizon) ∧
    (∀ resp, forecast r = .ok resp → (resp.points.length : Int) = r.horizon) := by
  intro r hh
  have key : ∀ resp, forecast r = .ok resp → (resp.points.length : Int) = r.horizon := by
    intro resp h
    obtain ⟨hm, hh2, hl, h2, rfl⟩ := forecast_ok_inv h
    have hy : r.y ≠ [] := by
      intro e
      rw [e] at hl
      simp at hl
      rw [hl] at h2
      simp at h2
    simp only [assembledResponse, List.length_map, List.enumFrom_length,
      length_dispatchPreds r hy]
    exact Int.toNat_of_nonneg (by omega)
  constructor
  · intro hm hl h2
    exact ⟨assembledResponse r, forecast_eq_ok hm hh hl h2,
      key _ (forecast_eq_ok hm hh hl h2)⟩
  · exact key

/-- Witness for C1 at the valid request
`model = "ETS", ds = [0, 86400], y = [1, 2], horizon = 2`. -/
theorem forecast_complete_horizon_witness :
    ∃ resp, forecast ⟨"ETS", [0, 86400], [1, 2], 2, none⟩ = .ok resp ∧
      (resp.points.length : Int) = 2 :=
  (forecast_complete_horizon ⟨"ETS", [0, 86400], [1, 2], 2, none⟩
    (by decide)).1 (by decide) (by decide) (by decide)

/-- C2: with `horizon ≥ 1` (pydantic rejects the rest separately), the
exchange errors exactly when the sequences mismatch in length, or fewer
than 2 observations are supplied, or the model selector is outside
`{"ETS", "PROPHET"}`; an error carries no points by construction.  For a
recognized model, a length mismatch yields the length-mismatch error and
short history the insufficient-history error — both decided before either
forecaster is consulted, as the error is fixed whatever the forecaster
would return. -/
theorem forecast_error_taxonomy :
    ∀ r : ForecastRequest, 1 ≤ r.horizon →
    ((isErr (forecast r) = true) ↔
      (r.ds.length ≠ r.y.length ∨ r.ds.length < 2 ∨
        (r.model ≠ "ETS" ∧ r.model ≠ "PROPHET"))) ∧
    ((r.model = "ETS" ∨ r.model = "PROPHET") → r.ds.length ≠ r.y.length →
      forecast r = .error .lengthMismatch) ∧
    ((r.model = "ETS" ∨ r.model = "PROPHET") → r.ds.length = r.y.length →
      r.ds.length < 2 → forecast r = .error .insufficientHistory) := by
  intro r hh
  refine ⟨⟨?_, ?_⟩, ?_, ?_⟩
  · intro he
    by_contra hcon
    push_neg at hcon
    obtain ⟨hl, h2, hmf⟩ := hcon
    have hm : r.model = "ETS" ∨ r.model = "PROPHET" := by
      by_cases hE : r.model = "ETS"
      · exact Or.inl hE
      · exact Or.inr (hmf hE)
    rw [forecast_eq_ok hm hh hl (by omega)] at he
    simp [isErr] at he
  · intro hcond
    by_cases hmm : r.model ≠ "ETS" ∧ r.model ≠ "PROPHET"
    · rw [forecast_invalid_model hmm]
      rfl
    · rcases hcond with hl | h2 | hm
      · rw [forecast_length_mismatch_err hmm hh hl]
        rfl
      · by_cases hl : r.ds.length ≠ r.y.length
        · rw [forecast_length_mismatch_err hmm hh hl]
          rfl
        · rw [forecast_insufficient_err hmm hh (not_ne_iff.mp hl) h2]
          rfl
      · exact absurd hm hmm
  · intro hm hl
    exact forecast_length_mismatch_err (by tauto) hh hl
  · intro hm hl h2
    exact forecast_insufficient_err (by tauto) hh hl h2

/-- Witness for C2: mismatched lengths (`ds = [1, 2, 3]`, `y = [1, 2]`)
with the recognized model `"ETS"` produce the length-mismatch error, and a
single observation produces the insufficient-history error. -/
theorem forecast_error_taxonomy_witness :
    forecast ⟨"ETS", [1, 2, 3], [1, 2], 3, none⟩ = .error .lengthMismatch ∧
    forecast ⟨"ETS", [5], [1], 3, none⟩ = .error .insufficientHistory :=
  ⟨(forecast_error_taxonomy ⟨"ETS", [1, 2, 3], [1, 2], 3, none⟩
      (by decide)).2.1 (by decide) (by decide),
   (forecast_error_taxonomy ⟨"ETS", [5], [1], 3, none⟩
      (by decide)).2.2 (by decide) (by decide) (by decide)⟩

theorem digitChar_mem (n : Nat) :
    digitChar n ∈ ['0', '1', '2', '3', '4', '5', '6', '7', '8', '9'] := by
  rw [digitChar]
  exact getD_mem _ _ (by simp; omega)

theorem natDigitsGo_mem (fuel : Nat) :
    ∀ (n : Nat) (c : Char), c ∈ natDigitsGo fuel n →
      c ∈ ['0', '1', '2', '3', '4', '5', '6', '7', '8', '9'] := by
  induction fuel with
  | zero =>
    intro n c hc
    simp [natDigitsGo] at hc
  | succ f ih =>
    intro n c hc
    rw [natDigitsGo] at hc
    split at hc
    · rw [List.mem_singleton] at hc
      exact hc ▸ digitChar_mem n
    · rw [List.mem_append, List.mem_singleton] at hc
      rcases hc with hc | hc
      · exact ih _ _ hc
      · exact hc ▸ digitChar_mem _

theorem natDigits_mem {n : Nat} {c : Char} (hc : c ∈ natDigits n) :
    c ∈ ['0', '1', '2', '3', '4', '5', '6', '7', '8', '9'] :=
  natDigitsGo_mem _ _ _ hc

theorem zfill_mem {w : Nat} {s : List Char} {c : Char} (hc : c ∈ zfill w s) :
    c = '0' ∨ c ∈ s := by
  rw [zfill, List.mem_append] at hc
  rcases hc with hc | hc
  · exact Or.inl (List.eq_of_mem_replicate hc)
  · exact Or.inr hc

theorem forall_mem_append_of {P : Char → Prop} {l1 l2 : List Char}
    (h1 : ∀ c ∈ l1, P c) (h2 : ∀ c ∈ l2, P c) : ∀ c ∈ l1 ++ l2, P c := by
  intro c hc
  rcases List.mem_append.mp hc with hc | hc
  · exact h1 c hc
  · exact h2 c hc

theorem isoChars_mem (s : Int) :
    ∀ c ∈ isoChars s,
      c ∈ ['0', '1', '2', '3', '4', '5', '6', '7', '8', '9', '-', ':', 'T'] := by
  have hz : ∀ (w n : Nat), ∀ c ∈ zfill w (natDigits n),
      c ∈ ['0', '1', '2', '3', '4', '5', '6', '7', '8', '9', '-', ':', 'T'] := by
    intro w n c hc
    rcases (by rw [zfill, List.mem_append] at hc; exact hc :
        c ∈ List.replicate (w - (natDigits n).length) '0' ∨ c ∈ natDigits n) with hc | hc
    · rw [List.eq_of_mem_replicate hc]
      decide
    · have h9 := natDigits_mem hc
      simp only [List.mem_cons, List.not_mem_nil, or_false] at h9 ⊢
      tauto
  have hsep : ∀ x : Char,
      x ∈ (['0', '1', '2', '3', '4', '5', '6', '7', '8', '9', '-', ':', 'T'] : List Char) →
      ∀ c ∈ [x], c ∈ ['0', '1', '2', '3', '4', '5', '6', '7', '8', '9', '-', ':', 'T'] := by
    intro x hx c hc
    rw [List.mem_singleton] at hc
    exact hc ▸ hx
  rw [isoChars]
  exact forall_mem_append_of (hz _ _) (forall_mem_append_of (hsep '-' (by decide))
    (forall_mem_append_of (hz _ _) (forall_mem_append_of (hsep '-' (by decide))
    (forall_mem_append_of (hz _ _) (forall_mem_append_of (hsep 'T' (by decide))
    (forall_mem_append_of (hz _ _) (forall_mem_append_of (hsep ':' (by decide))
    (forall_mem_append_of (hz _ _) (forall_mem_append_of (hsep ':' (by decide))
    (hz _ _))))))))))

theorem isoChars_clean (s : Int) (c : Char) (hc : c ∈ isoChars s) :
    c ≠ 'Z' ∧ c ≠ '.' ∧ c ≠ '+' := by
  have h := isoChars_mem s c hc
  fin_cases h <;> decide

theorem points_getD {r : ForecastRequest} {resp : ForecastResponse}
    (h : forecast r = .ok resp) {k : Nat} (hk : k < resp.points.length) :
    resp.points.getD k dummyPoint
      = { t := iso_from_seconds (projSeconds r k)
          yhat := (dispatchPreds r).getD k 0
          yhatLower := none
          yhatUpper := none
          isFuture := true } := by
  obtain ⟨-, -, -, -, hresp⟩ := forecast_ok_inv h
  subst hresp
  have hk' : k < (dispatchPreds r).length := by
    simpa [assembledResponse, List.length_map, List.enumFrom_length] using hk
  simp only [assembledResponse]
  rw [getD_eq_getElem _ _ (by simpa [List.length_map, List.enumFrom_length] using hk')]
  simp only [List.getElem_map, List.getElem_enumFrom]
  have hc : ((1 + k : Nat) : Int) = (k : Int) + 1 := by omega
  rw [projSeconds, getD_eq_getElem _ _ hk', hc]

/-- C7: every point of a successful response renders the epoch value
`last_ds + step * k` (1-based k) through `iso_from_seconds` and carries
`isFuture = true` with absent bounds; `iso_from_seconds` always produces a
core of calendar characters followed by a literal `'Z'`, with no `'.'`
(whole-second precision), no `'+'` (no numeric offset) and no other `'Z'`
in the core; `345600` renders as `"1970-01-05T00:00:00Z"`. -/
theorem response_point_shape :
    (∀ (r : ForecastRequest) (resp : ForecastResponse), forecast r = .ok resp →
      ∀ k, k < resp.points.length →
        (resp.points.getD k dummyPoint).t
            = iso_from_seconds
                (r.ds.getLastD 0 + infer_step_seconds r.ds * ((k : Int) + 1)) ∧
        (resp.points.getD k dummyPoint).isFuture = true ∧
        (resp.points.getD k dummyPoint).yhatLower = none ∧
        (resp.points.getD k dummyPoint).yhatUpper = none) ∧
    (∀ s : Int, ∃ core : List Char,
      iso_from_seconds s = String.mk (core ++ ['Z']) ∧
      ∀ c ∈ core, c ≠ 'Z' ∧ c ≠ '.' ∧ c ≠ '+') ∧
    iso_from_seconds 345600 = "1970-01-05T00:00:00Z" := by
  refine ⟨?_, ?_, by decide⟩
  · intro r resp h k hk
    rw [points_getD h hk]
    refine ⟨?_, rfl, rfl, rfl⟩
    rw [projSeconds]
  · intro s
    exact ⟨isoChars s, rfl, isoChars_clean s⟩

/-- Witness for C7 at the valid request
`model = "ETS", ds = [0, 86400], y = [1, 2], horizon = 2` and its computed
response, point `k = 0`. -/
theorem response_point_shape_witness :
    ((⟨[⟨"1970-01-03T00:00:00Z", 2, none, none, true⟩,
        ⟨"1970-01-04T00:00:00Z", 2, none, none, true⟩],
       ⟨2, 2, none, ⟨0, none, none, none⟩⟩⟩ : ForecastResponse).points.getD 0
        dummyPoint).t
      = iso_from_seconds
          ((⟨"ETS", [0, 86400], [1, 2], 2, none⟩ : ForecastRequest).ds.getLastD 0
            + infer_step_seconds
                (⟨"ETS", [0, 86400], [1, 2], 2, none⟩ : ForecastRequest).ds
              * ((0 : Int) + 1)) ∧
    ((⟨[⟨"1970-01-03T00:00:00Z", 2, none, none, true⟩,
        ⟨"1970-01-04T00:00:00Z", 2, none, none, true⟩],
       ⟨2, 2, none, ⟨0, none, none, none⟩⟩⟩ : ForecastResponse).points.getD 0
        dummyPoint).isFuture = true ∧
    ((⟨[⟨"1970-01-03T00:00:00Z", 2, none, none, true⟩,
        ⟨"1970-01-04T00:00:00Z", 2, none, none, true⟩],
       ⟨2, 2, none, ⟨0, none, none, none⟩⟩⟩ : ForecastResponse).points.getD 0
        dummyPoint).yhatLower = none ∧
    ((⟨[⟨"1970-01-03T00:00:00Z", 2, none, none, true⟩,
        ⟨"1970-01-04T00:00:00Z", 2, none, none, true⟩],
       ⟨2, 2, none, ⟨0, none, none, none⟩⟩⟩ : ForecastResponse).points.getD 0
        dummyPoint).yhatUpper = none :=
  response_point_shape.1 ⟨"ETS", [0, 86400], [1, 2], 2, none⟩
    ⟨[⟨"1970-01-03T00:00:00Z", 2, none, none, true⟩,
      ⟨"1970-01-04T00:00:00Z", 2, none, none, true⟩],
     ⟨2, 2, none, ⟨0, none, none, none⟩⟩⟩ (by rfl) 0 (by decide)

/-- C10: the inferred step is always at least 1, every successful point's
timestamp is the rendering of `projSeconds` (which includes unsorted or
duplicate-timestamp inputs, where the inferer falls back to the default
step), and the projected epoch values are strictly increasing in the point
index and strictly above the last historical timestamp. -/
theorem projected_timestamps_strictly_increasing :
    (∀ ds : List Int, 1 ≤ infer_step_seconds ds) ∧
    (∀ (r : ForecastRequest) (resp : ForecastResponse), forecast r = .ok resp →
      ∀ k, k < resp.points.length →
        (resp.points.getD k dummyPoint).t = iso_from_seconds (projSeconds r k)) ∧
    (∀ (r : ForecastRequest) (j k : Nat), j < k →
      r.ds.getLastD 0 < projSeconds r j ∧ projSeconds r j < projSeconds r k) := by
  refine ⟨infer_step_pos, ?_, ?_⟩
  · intro r resp h k hk
    rw [points_getD h hk]
  · intro r j k hjk
    have hstep := infer_step_pos r.ds
    constructor
    · have hp : 0 < infer_step_seconds r.ds * ((j : Int) + 1) :=
        mul_pos (by omega) (by omega)
      rw [projSeconds]
      omega
    · have hlt : infer_step_seconds r.ds * ((j : Int) + 1)
          < infer_step_seconds r.ds * ((k : Int) + 1) :=
        mul_lt_mul_of_pos_left (by omega) (by omega)
      rw [projSeconds, projSeconds]
      omega

/-- Witness for C10 at the valid request with unsorted, duplicated
timestamps `ds = [5, 5, 3]` (conjunct on strict growth) and at the request
`ds = [0, 86400]` with its computed response (conjunct on the rendered
timestamp of point 0). -/
theorem projected_timestamps_strictly_increasing_witness :
    ((⟨[⟨"1970-01-03T00:00:00Z", 2, none, none, true⟩,
        ⟨"1970-01-04T00:00:00Z", 2, none, none, true⟩],
       ⟨2, 2, none, ⟨0, none, none, none⟩⟩⟩ : ForecastResponse).points.getD 0
        dummyPoint).t
      = iso_from_seconds (projSeconds ⟨"ETS", [0, 86400], [1, 2], 2, none⟩ 0) ∧
    ((⟨"ETS", [5, 5, 3], [1, 2, 2], 2, none⟩ : ForecastRequest).ds.getLastD 0
        < projSeconds ⟨"ETS", [5, 5, 3], [1, 2, 2], 2, none⟩ 0 ∧
      projSeconds ⟨"ETS", [5, 5, 3], [1, 2, 2], 2, none⟩ 0
        < projSeconds ⟨"ETS", [5, 5, 3], [1, 2, 2], 2, none⟩ 1) :=
  ⟨projected_timestamps_strictly_increasing.2.1
      ⟨"ETS", [0, 86400], [1, 2], 2, none⟩
      ⟨[⟨"1970-01-03T00:00:00Z", 2, none, none, true⟩,
        ⟨"1970-01-04T00:00:00Z", 2, none, none, true⟩],
       ⟨2, 2, none, ⟨0, none, none, none⟩⟩⟩ (by rfl) 0 (by decide),
   projected_timestamps_strictly_increasing.2.2
      ⟨"ETS", [5, 5, 3], [1, 2, 2], 2, none⟩ 0 1 (by decide)⟩
